import Mathlib

/-!
Verification of the `serde_resp` codec (a RESP-style serde data format).

The deserializer (`src/de.rs`) is embedded as explicit state passing over a
byte list: the `Deserializer` struct's `BufReader` is modelled by the full
input together with a consumed-bytes position `pos` (faithful to a slice
source whose length fits the reader's buffer capacity), and the diagnostic
counter `byte_offset` is carried separately, exactly as in the source.
Bytes are `Nat` values below 256; `usize`/`u64` arithmetic that can wrap is
written with an explicit `% 2 ^ 64`.  Fallible Rust code returning
`Result<T, Error>` becomes the `Res` outcome type below; a Rust panic
(`unwrap` on `None`, `unimplemented!`) is the distinguished outcome `die`,
and the non-terminating loop reachable in `peek_nchar` (a `fill_buf` that
can no longer grow the buffer) is the outcome `hang`.
-/

namespace SerdeResp

/-- The error enum of `src/error.rs` (the `Io` carrier is omitted: a slice
source produces no I/O errors other than the `UnexpectedEof` that
`From<io::Error>` already normalizes to `Eof`). -/
inductive Error where
  | Message : String → Error
  | Eof
  | ExpectedBoolean
  | ExpectedArray
  | ExpectedDollarSign
  | ExpectedStarSign
  | ExpectedMoreBulkString
  | ExpectedNone
  | ExpectedMoreContent
  | MismatchedName
  | MismatchedLengthHint
  | BadLengthHint
  | BadNumContent
  | UnbalancedCRLF
  | ExpectedLF
  | TrailingBytes
deriving DecidableEq, Repr

/-- Outcome of running a piece of Rust code: normal return, `Err(e)`,
a panic (`die`), or non-termination (`hang`). -/
inductive Res (α : Type) where
  | ok : α → Res α
  | err : Error → Res α
  | die : String → Res α
  | hang : Res α
deriving DecidableEq, Repr

/-- State of `Deserializer<R>` over an in-memory source: the whole input,
the number of bytes already consumed from the reader, and the `byte_offset`
diagnostic counter that the source updates only on some paths. -/
structure Deserializer where
  input : List Nat
  pos : Nat
  byte_offset : Nat
deriving DecidableEq, Repr

/-- A deserializer method returning `Result<α>`: explicit state passing. -/
def M (α : Type) : Type := Deserializer → Res (α × Deserializer)

def M.pure (a : α) : M α := fun s => .ok (a, s)

def M.bind (m : M α) (f : α → M β) : M β := fun s =>
  match m s with
  | .ok (a, s') => f a s'
  | .err e => .err e
  | .die msg => .die msg
  | .hang => .hang

instance : Monad M where
  pure := M.pure
  bind := M.bind

/-- `return Err(e)` -/
def M.throwE (e : Error) : M α := fun _ => .err e

/-- A Rust panic. -/
def M.panicked (msg : String) : M α := fun _ => .die msg

def CR : Nat := 13
def LF : Nat := 10

/-- ASCII bytes of a character list (all wire content here is ASCII). -/
def asciiBytes (cs : List Char) : List Nat := cs.map Char.toNat

/-- `peek_nchar(n)`: returns the next `n` unconsumed bytes without
advancing.  The source loops `fill_buf` while the buffer holds fewer than
`n` bytes; with the whole remaining input buffered, a zero-length
`fill_buf` (empty buffer, empty source) is `Err(Eof)`, while a non-empty
buffer that can never reach `n` bytes makes the loop spin forever. -/
def peek_nchar (n : Nat) : M (List Nat) := fun s =>
  if n ≤ s.input.length - s.pos then
    .ok ((s.input.drop s.pos).take n, s)
  else if s.input.length - s.pos = 0 then .err .Eof
  else .hang

/-- `peek_char`: first byte of `peek_nchar(1)`. -/
def peek_char : M Nat := do
  let l ← peek_nchar 1
  pure (l.headD 0)

/-- `consume(n)`: advance the reader past `n` peeked bytes.  Note that it
does not touch `byte_offset`. -/
def consume (n : Nat) : M Unit := fun s =>
  .ok ((), { s with pos := s.pos + n })

/-- The `self.byte_offset += n` statements of the source. -/
def bump_offset (n : Nat) : M Unit := fun s =>
  .ok ((), { s with byte_offset := s.byte_offset + n })

/-- `next_char`: peek one byte, consume it, `byte_offset += 1`. -/
def next_char : M Nat := do
  let ch ← peek_char
  consume 1
  bump_offset 1
  pure ch

/-- `read_until(LF)`: everything up to and including the first LF, or all
remaining bytes when no LF occurs. -/
def read_until_lf : List Nat → List Nat
  | [] => []
  | b :: rest => if b = LF then [b] else b :: read_until_lf rest

/-- `next_lf`: one `read_until(LF)` line; `Eof` when nothing was read,
`UnbalancedCRLF` when the line is shorter than 2 bytes or the byte before
the end is not CR.  `byte_offset` is not updated here. -/
def next_lf : M (List Nat) := fun s =>
  let buf := read_until_lf (s.input.drop s.pos)
  let n := buf.length
  if n = 0 then .err .Eof
  else if n < 2 ∨ buf.getD (n - 2) 0 ≠ CR then .err .UnbalancedCRLF
  else .ok (buf, { s with pos := s.pos + n })

/-- Decimal digit accumulation of the length-hint loop: `none` on the
first non-digit byte.  The `usize` accumulator is modelled as `Nat`. -/
def parseDecimalDigits : List Nat → Nat → Option Nat
  | [], acc => some acc
  | ch :: rest, acc =>
    if 48 ≤ ch ∧ ch ≤ 57 then parseDecimalDigits rest (acc * 10 + (ch - 48))
    else none

/-- `next_length_hint`: reads one line.  A line starting with `-` yields
`none` (the absent marker) when `buf.len() == 4 || buf == "-1\r\n"` — the
source's disjunction, written exactly as in `src/de.rs` — and
`BadLengthHint` otherwise.  A digit line yields its value and bumps
`byte_offset` by the line length; the `none` path returns before the
`byte_offset += n` statement. -/
def next_length_hint : M (Option Nat) := do
  let buf ← next_lf
  let n := buf.length
  if buf.headD 0 = 45 then
    if n = 4 ∨ buf = [45, 49, CR, LF] then pure none
    else M.throwE .BadLengthHint
  else
    match parseDecimalDigits (buf.take (n - 2)) 0 with
    | some len => do
        bump_offset n
        pure (some len)
    | none => M.throwE .BadLengthHint

/-- `read_exact(n)` through the buffered reader: exactly `n` bytes or
`Eof` (the `UnexpectedEof` kind normalized by `From<io::Error>`). -/
def read_exact (n : Nat) : M (List Nat) := fun s =>
  if n ≤ s.input.length - s.pos then
    .ok ((s.input.drop s.pos).take n, { s with pos := s.pos + n })
  else .err .Eof

/-- `parse_bulk_string`: sigil `$`, a length hint, then `len + 2` bytes
checked to end in CR LF (LF checked first).  The source returns the whole
`len + 2`-byte buffer `buf` — terminator included — not `buf[..len]`. -/
def parse_bulk_string : M (Option (List Nat)) := do
  let c ← next_char
  if c ≠ 36 then M.throwE .ExpectedDollarSign
  else
    match ← next_length_hint with
    | some len => do
        let buf ← read_exact (len + 2)
        if buf.getD (len + 1) 0 ≠ LF then M.throwE .ExpectedLF
        else if buf.getD len 0 ≠ CR then M.throwE .UnbalancedCRLF
        else do
          bump_offset (len + 2)
          pure (some buf)
    | none => pure none

def trueWire : List Nat := asciiBytes ['$', '4', '\r', '\n', 't', 'r', 'u', 'e', '\r', '\n']
def falseWire : List Nat := asciiBytes ['$', '5', '\r', '\n', 'f', 'a', 'l', 's', 'e', '\r', '\n']

/-- `parse_bool`: the two closed literal encodings, consumed with
`consume(10)` / `consume(11)` — `byte_offset` is not advanced. -/
def parse_bool : M Bool := do
  let l ← peek_nchar 10
  if l = trueWire then do
    consume 10
    pure true
  else do
    let l2 ← peek_nchar 11
    if l2 = falseWire then do
      consume 11
      pure false
    else M.throwE .ExpectedBoolean

/-- The digit loop of `parse_unsigned::<T>` for a `w`-bit unsigned target:
`num = num * 10 + d` with wrapping arithmetic, `BadNumContent` on any
non-digit byte. -/
def parseWrapDigits (w : Nat) : List Nat → Nat → Option Nat
  | [], acc => some acc
  | ch :: rest, acc =>
    if 48 ≤ ch ∧ ch ≤ 57 then
      parseWrapDigits w rest ((acc * 10 + (ch - 48)) % 2 ^ w)
    else none

/-- `parse_unsigned::<T>` with `T` a `w`-bit unsigned integer: a bulk
string whose returned bytes must all be digits. -/
def parse_unsigned (w : Nat) : M Nat := do
  match ← parse_bulk_string with
  | some num_bytes =>
      match parseWrapDigits w num_bytes 0 with
      | some num => pure num
      | none => M.throwE .BadNumContent
  | none => M.throwE .BadNumContent

/-- The null bulk string marker `$-1\r\n`. -/
def nullBulk : List Nat := asciiBytes ['$', '-', '1', '\r', '\n']

/-- `deserialize_option`: peek 5 bytes; the null marker is consumed with
`consume(5)` (no `byte_offset` update) and visits `none`; anything else
delegates to the inner deserialize as `some`. -/
def deserialize_option (inner : M α) : M (Option α) := do
  let l ← peek_nchar 5
  if l = nullBulk then do
    consume 5
    pure none
  else do
    let a ← inner
    pure (some a)

/-- `deserialize_bytes` (also backing `deserialize_str`,
`deserialize_string` and `deserialize_identifier`):
`self.parse_bulk_string()?.unwrap()` — the `None` of a null bulk string is
unwrapped, which panics. -/
def deserialize_bytes : M (List Nat) := do
  match ← parse_bulk_string with
  | some s => pure s
  | none => M.panicked "called unwrap on a None value"

/-- `deserialize_unit`: a null bulk string; any present bulk string is
`ExpectedNone`. -/
def deserialize_unit : M Unit := do
  match ← parse_bulk_string with
  | some _ => M.throwE .ExpectedNone
  | none => pure ()

/-- `deserialize_unit_struct(name)`: `*`, a hint that must be
`Some(1)`, then a bulk string compared to `name`. -/
def deserialize_unit_struct (name : List Nat) : M Unit := do
  let c ← next_char
  if c ≠ 42 then M.throwE .ExpectedStarSign
  else
    match ← next_length_hint with
    | some 1 =>
        (match ← parse_bulk_string with
        | some parsed_name =>
            if parsed_name = name then pure () else M.throwE .MismatchedName
        | none => M.throwE .MismatchedName)
    | _ => M.throwE .BadLengthHint

/-- `SeqAccess::next_element_seed` of `BulkStrings`: at `cnt = 0` report
the sequence exhausted, otherwise `cnt -= 1` and deserialize one element.
`cnt` is a `u64`; here `cnt ≥ 1` so the subtraction cannot wrap. -/
def seq_next_element (elem : M α) (cnt : Nat) : M (Option α × Nat) :=
  if cnt = 0 then pure (none, cnt)
  else do
    let a ← elem
    pure (some a, cnt - 1)

/-- `deserialize_tuple_struct(name, len)` (also backing
`deserialize_struct`, which passes `fields.len()`): `*`, a present hint
that must equal `len + 1`, a bulk string compared byte-for-byte to `name`,
then `visitor.visit_seq(BulkStrings::new(de, len))` abstracted as
`visit_seq len`. -/
def deserialize_tuple_struct (name : List Nat) (len : Nat)
    (visit_seq : Nat → M α) : M α := do
  let c ← next_char
  if c ≠ 42 then M.throwE .ExpectedStarSign
  else
    match ← next_length_hint with
    | some parsed_len =>
        if parsed_len ≠ len + 1 then M.throwE .MismatchedLengthHint
        else
          match ← parse_bulk_string with
          | some parsed_name =>
              if parsed_name = name then visit_seq len
              else M.throwE .MismatchedName
          | none => M.throwE .MismatchedName
    | none => M.throwE .MismatchedLengthHint

/-- The visitor of a one-field record whose field is a 32-bit unsigned
integer (what serde derives for `struct Test { val: u32 }` minus the name
frame): one `next_element` call, erroring on a premature end. -/
def visit_one_u32 (cnt : Nat) : M Nat := do
  let (a, _rest) ← seq_next_element (parse_unsigned 32) cnt
  match a with
  | some v => pure v
  | none => M.throwE (.Message "invalid length")

/-- `EnumAccess::variant_seed` of `BulkStrings`: deserialize the tag, then
`self.cnt -= 1` — an unguarded `u64` decrement, modelled with its wrapping
value `(cnt + 2 ^ 64 - 1) % 2 ^ 64` — then, when the remaining count is
positive, require the next byte to be `$`. -/
def variant_seed (tag : M α) (cnt : Nat) : M (α × Nat) := do
  let val ← tag
  let cnt' := (cnt + (2 ^ 64 - 1)) % 2 ^ 64
  if cnt' > 0 then do
    let c ← peek_char
    if c ≠ 36 then M.throwE .ExpectedMoreBulkString
    else pure (val, cnt')
  else pure (val, cnt')

/-- `deserialize_enum`: `*`, a present hint (absent is
`MismatchedLengthHint`), then `visit_enum(BulkStrings::new(de, len))`,
whose first action is `variant_seed` with the tag deserialized through
`deserialize_identifier` = `deserialize_bytes`. -/
def deserialize_enum (tag : M α) : M (α × Nat) := do
  let c ← next_char
  if c ≠ 42 then M.throwE .ExpectedStarSign
  else
    match ← next_length_hint with
    | some len => variant_seed tag len
    | none => M.throwE .MismatchedLengthHint

/-- `from_bytes` / `from_reader`: build a fresh `Deserializer` over the
input and run `T::deserialize`.  The source returns `Ok(t)` directly —
the trailing-bytes check is commented out — so the final state is simply
discarded. -/
def from_bytes (deserialize : M α) (input : List Nat) : Res α :=
  match deserialize { input := input, pos := 0, byte_offset := 0 } with
  | .ok (t, _) => .ok t
  | .err e => .err e
  | .die msg => .die msg
  | .hang => .hang

/-- The serializer of `src/ser.rs`: an output byte buffer. -/
structure Serializer where
  output : List Nat
deriving DecidableEq, Repr

/-- ASCII decimal rendering of a `Nat` (the `format!("{}", n)` /
`to_string` digits), by fuel-indexed division. -/
def natDecimalAux : Nat → Nat → List Nat
  | 0, _ => []
  | fuel + 1, n =>
    if n < 10 then [48 + n]
    else natDecimalAux fuel (n / 10) ++ [48 + n % 10]

def natDecimal (n : Nat) : List Nat := natDecimalAux (n + 1) n

/-- `append_element`: `$<len>\r\n<element>\r\n`. -/
def append_element (s : Serializer) (element : List Nat) : Serializer :=
  { output := s.output ++ [36] ++ natDecimal element.length ++ [CR, LF]
      ++ element ++ [CR, LF] }

/-- `serialize_bool`: the literal `true` / `false` bulk strings. -/
def serialize_bool (s : Serializer) (v : Bool) : Serializer :=
  append_element s (if v then asciiBytes ['t', 'r', 'u', 'e']
    else asciiBytes ['f', 'a', 'l', 's', 'e'])

/-- `serialize_u64` (every narrower unsigned type widens into it): the
decimal digits as one bulk string. -/
def serialize_u64 (s : Serializer) (v : Nat) : Serializer :=
  append_element s (natDecimal v)

/-- `serialize_u32`: `self.serialize_u64(u64::from(v))`. -/
def serialize_u32 (s : Serializer) (v : Nat) : Serializer :=
  serialize_u64 s v

/-- `serialize_str` / `serialize_bytes`: the raw bytes as one bulk
string.  All serialize methods return `Result<()>`; the infallible ones
are modelled as plain state transformers. -/
def serialize_bytes (s : Serializer) (v : List Nat) : Serializer :=
  append_element s v

/-- `serialize_f64`: `self.append_element(&v.to_string().as_bytes());
Ok(())` — it succeeds.  The decimal rendering of the float is passed in
explicitly (`rendered`); the control flow is independent of its value. -/
def serialize_f64 (s : Serializer) (rendered : List Nat) : Res Serializer :=
  .ok (append_element s rendered)

/-- `serialize_map`: `unimplemented!("map type is not supported")` — an
unconditional panic, not an `Err`. -/
def serialize_map (_s : Serializer) : Res Serializer :=
  .die "map type is not supported"

/-- `Deserializer::deserialize_f64` is `unimplemented!()`: a panic. -/
def deserialize_f64 : M Unit := M.panicked "not implemented"

/-- `Deserializer::deserialize_map` is `unimplemented!()`: a panic. -/
def deserialize_map : M Unit := M.panicked "not implemented"

/-- `to_bytes` for a `u32` value: serialize into an empty output buffer. -/
def to_bytes_u32 (v : Nat) : List Nat :=
  (serialize_u32 { output := [] } v).output

/-- `to_bytes` for a `&str` / byte-string value. -/
def to_bytes_bytes (v : List Nat) : List Nat :=
  (serialize_bytes { output := [] } v).output

/-- Modelled from the spec: the Streaming Iterator
(`Deserializer::into_iter::<T>()`), which `src/lib.rs` exports and
`tests/test_de.rs` exercises but whose implementation is absent from
`src/`.  Per §4.5 of the spec, each step peeks one byte; `EndOfInput` on
that peek is translated into "sequence exhausted" (not an error); any
other peek result attempts a full top-level decode and yields its outcome
as one produced item, a failed item ending the iteration.  `fuel` bounds
the number of steps taken. -/
def into_iter_items (d : M α) : Nat → Deserializer → List (Res α)
  | 0, _ => []
  | fuel + 1, s =>
    if peek_nchar 1 s = .err .Eof then []
    else
      match d s with
      | .ok (a, s') => .ok a :: into_iter_items d fuel s'
      | .err e => [.err e]
      | .die msg => [.die msg]
      | .hang => [.hang]

/-- The wire frame `$4\r\nTest\r\n`. -/
def bulkTestWire : List Nat :=
  asciiBytes ['$', '4', '\r', '\n', 'T', 'e', 's', 't', '\r', '\n']

/-- The wire frame `*2\r\n$4\r\nTest\r\n$1\r\n1\r\n` of spec scenario 2. -/
def recordWire : List Nat :=
  asciiBytes ['*', '2', '\r', '\n', '$', '4', '\r', '\n', 'T', 'e', 's', 't',
    '\r', '\n', '$', '1', '\r', '\n', '1', '\r', '\n']

/-- An enum frame whose array header declares zero elements, followed by a
bulk-string tag and one more bulk string: `*0\r\n$4\r\nUnit\r\n$1\r\n1\r\n`. -/
def zeroCountEnumWire : List Nat :=
  asciiBytes ['*', '0', '\r', '\n', '$', '4', '\r', '\n', 'U', 'n', 'i', 't',
    '\r', '\n', '$', '1', '\r', '\n', '1', '\r', '\n']

/-- Two concatenated boolean frames: `$4\r\ntrue\r\n$5\r\nfalse\r\n`. -/
def twoBoolWire : List Nat := trueWire ++ falseWire

/-- Claim C1 (code_bug record): the round-trip fails on the code.
`to_bytes(42u32)` is `$2\r\n42\r\n`, but deserializing it back yields
`Err(BadNumContent)` instead of `Ok(42)`: `parse_bulk_string` hands the
digit loop the content together with its CR LF terminator, and the CR is
not a digit.  The repository's own tests (`test_struct` in `src/de.rs` and
`tests/test_de.rs`) assert the very decodes this breaks. -/
theorem C1_roundtrip_u32_broken :
    to_bytes_u32 42 = asciiBytes ['$', '2', '\r', '\n', '4', '2', '\r', '\n']
    ∧ from_bytes (parse_unsigned 32) (to_bytes_u32 42) = .err .BadNumContent := by
  decide

/-- Claim C2 (code_bug record): on the well-formed frame `$4\r\nTest\r\n`,
`parse_bulk_string` returns all `L + 2 = 6` bytes `Test\r\n` — terminator
included — not the first `L = 4` content bytes the claim (and the spec)
state. -/
theorem C2_bulk_string_keeps_terminator :
    parse_bulk_string { input := bulkTestWire, pos := 0, byte_offset := 0 } =
      .ok (some (asciiBytes ['T', 'e', 's', 't', '\r', '\n']),
        { input := bulkTestWire, pos := 10, byte_offset := 10 })
    ∧ asciiBytes ['T', 'e', 's', 't', '\r', '\n'] ≠ asciiBytes ['T', 'e', 's', 't'] := by
  decide

/-- Claim C3 (code_bug record): `from_bytes` performs no trailing-bytes
check — the check is commented out in the source and `Error::TrailingBytes`
is never constructed.  Decoding `$4\r\ntrue\r\n` followed by three stray
bytes `abc` as a boolean succeeds with `Ok(true)` instead of returning
`Err(TrailingBytes)`. -/
theorem C3_no_trailing_bytes_check :
    from_bytes parse_bool (trueWire ++ [97, 98, 99]) = .ok true
    ∧ from_bytes parse_bool (trueWire ++ [97, 98, 99]) ≠ .err .TrailingBytes := by
  decide

/-- Claim C4 (code_bug record): the null-hint test in `next_length_hint`
is `buf.len() == 4 || buf == b"-1\r\n"` — a degenerate disjunction (the
second disjunct implies the first), so ANY 4-byte line starting with `-`
is accepted as the absent marker: `-2\r\n` yields `Ok(None)` where the
claim (and the spec) require `BadLengthHint`.  The 5-byte `-12\r\n` does
fail as specified. -/
theorem C4_bad_neg_hint_accepted :
    next_length_hint { input := [45, 50, 13, 10], pos := 0, byte_offset := 0 } =
      .ok (none, { input := [45, 50, 13, 10], pos := 4, byte_offset := 0 })
    ∧ next_length_hint { input := [45, 49, 50, 13, 10], pos := 0, byte_offset := 0 } =
      .err .BadLengthHint := by
  decide

/-- Claim C6 (code_bug record): `serialize_f64` succeeds — it appends the
rendered float (here `3.2`) as an ordinary bulk string and returns `Ok` —
although the repository's own `test_float_fail` asserts an `Err` whose
message mentions "support"; `serialize_map` and the float/map deserialize
paths panic via `unimplemented!` instead of returning a descriptive
error. -/
theorem C6_float_map_not_errors :
    serialize_f64 { output := [] } (asciiBytes ['3', '.', '2']) =
      .ok { output := asciiBytes ['$', '3', '\r', '\n', '3', '.', '2', '\r', '\n'] }
    ∧ serialize_map { output := [] } = .die "map type is not supported"
    ∧ deserialize_f64 { input := [], pos := 0, byte_offset := 0 } = .die "not implemented"
    ∧ deserialize_map { input := [], pos := 0, byte_offset := 0 } = .die "not implemented" := by
  decide

/-- Claim C7 (code_bug record): decoding `*2\r\n$4\r\nTest\r\n$1\r\n1\r\n`
with declared shape `Record("Test", 1)` fails with `MismatchedName`
instead of succeeding: the parsed first element is `Test\r\n` (terminator
included, the `parse_bulk_string` defect), which never equals the declared
name.  The arity check itself behaves as claimed: a header count `3`
against `field_count + 1 = 2` is `MismatchedLengthHint`. -/
theorem C7_record_name_check_broken :
    from_bytes (deserialize_tuple_struct (asciiBytes ['T', 'e', 's', 't']) 1 visit_one_u32)
      recordWire = .err .MismatchedName
    ∧ from_bytes (deserialize_tuple_struct (asciiBytes ['T', 'e', 's', 't']) 1 visit_one_u32)
      (asciiBytes ['*', '3', '\r', '\n']) = .err .MismatchedLengthHint := by
  decide

/-- Claim C9 (confirmed): deserializing the null bulk string `$-1\r\n`
with a string/bytes shape (not wrapped in an option) reaches
`self.parse_bulk_string()?.unwrap()` with `None` and panics instead of
returning an error value. -/
theorem C9_null_bulk_string_panics :
    deserialize_bytes { input := nullBulk, pos := 0, byte_offset := 0 } =
      .die "called unwrap on a None value" := by
  decide

/-- Claim C10 (confirmed): decoding an enum from an array header that
declares count 0 followed by a bulk-string tag runs `variant_seed`, whose
unguarded `self.cnt -= 1` wraps the `u64` counter from 0 to `2^64 - 1`;
with that counter the bounded element cursor no longer reports the
sequence as exhausted — a further `next_element` happily reads another
element. -/
theorem C10_variant_cnt_underflow :
    deserialize_enum deserialize_bytes
      { input := zeroCountEnumWire, pos := 0, byte_offset := 0 } =
      .ok ((asciiBytes ['U', 'n', 'i', 't', '\r', '\n'], 2 ^ 64 - 1),
        { input := zeroCountEnumWire, pos := 14, byte_offset := 14 })
    ∧ seq_next_element deserialize_bytes (2 ^ 64 - 1)
      { input := zeroCountEnumWire, pos := 14, byte_offset := 14 } =
      .ok ((some (asciiBytes ['1', '\r', '\n']), 2 ^ 64 - 2),
        { input := zeroCountEnumWire, pos := 21, byte_offset := 21 }) := by
  decide

/-- Claim C5, counterexample: decoding the boolean `true` from its
10-byte wire frame succeeds and consumes all 10 bytes (`pos` goes 0 to
10), yet `byte_offset` stays 0 — it does not advance by the wire length
W = 10 as the claim states. -/
theorem C5_counterexample :
    parse_bool { input := trueWire, pos := 0, byte_offset := 0 } =
      .ok (true, { input := trueWire, pos := 10, byte_offset := 0 })
    ∧ ({ input := trueWire, pos := 10, byte_offset := 0 } : Deserializer).byte_offset ≠
      ({ input := trueWire, pos := 0, byte_offset := 0 } : Deserializer).byte_offset + 10 := by
  decide

/-- `peek_nchar 1` succeeds (without moving the state) whenever at least
one byte remains unconsumed. -/
theorem peek_one_of_lt (s : Deserializer) (h : s.pos < s.input.length) :
    peek_nchar 1 s = .ok ((s.input.drop s.pos).take 1, s) := by
  have h1 : 1 ≤ s.input.length - s.pos := by omega
  simp [peek_nchar, h1]

/-- `peek_nchar 1` is `Err(Eof)` exactly at the end of the input. -/
theorem peek_one_eof (s : Deserializer) (h : s.input.length ≤ s.pos) :
    peek_nchar 1 s = .err .Eof := by
  have h1 : ¬ 1 ≤ s.input.length - s.pos := by omega
  have h2 : s.input.length - s.pos = 0 := by omega
  simp [peek_nchar, h1, h2]

/-- Claim C8 (confirmed; the iterator itself is modelled from the spec):
whenever a stream consists of exactly two frames that the top-level decode
consumes in turn — the first decode succeeds from the start of the stream,
the second from where the first stopped, and nothing remains after it —
the streaming iterator produces exactly the two successful items and then
stops: its third step peeks at the exhausted stream, and the `Eof` of that
peek is reported as the end of the sequence, not as an error item. -/
theorem C8_iter_two_frames (α : Type) (d : M α) (s0 s1 s2 : Deserializer)
    (v1 v2 : α)
    (h0 : s0.pos < s0.input.length)
    (h1 : d s0 = .ok (v1, s1))
    (h2 : s1.pos < s1.input.length)
    (h3 : d s1 = .ok (v2, s2))
    (h4 : s2.input.length ≤ s2.pos) :
    ∀ fuel, into_iter_items d (fuel + 3) s0 = [.ok v1, .ok v2] := by
  intro fuel
  have p0 := peek_one_of_lt s0 h0
  have p1 := peek_one_of_lt s1 h2
  have p2 := peek_one_eof s2 h4
  show into_iter_items d (fuel + 2 + 1) s0 = _
  rw [into_iter_items, if_neg (by simp [p0]), h1]
  show Res.ok v1 :: into_iter_items d (fuel + 1 + 1) s1 = _
  rw [into_iter_items, if_neg (by simp [p1]), h3]
  show Res.ok v1 :: Res.ok v2 :: into_iter_items d (fuel + 1) s2 = _
  rw [into_iter_items, if_pos p2]

/-- Witness for C8: the stream `$4\r\ntrue\r\n$5\r\nfalse\r\n` holds
exactly two boolean frames; the iterator yields `Ok(true)`, `Ok(false)`
and then stops. -/
theorem C8_iter_two_frames_witness :
    into_iter_items parse_bool 3 { input := twoBoolWire, pos := 0, byte_offset := 0 } =
      [.ok true, .ok false] :=
  C8_iter_two_frames Bool parse_bool
    { input := twoBoolWire, pos := 0, byte_offset := 0 }
    { input := twoBoolWire, pos := 10, byte_offset := 0 }
    { input := twoBoolWire, pos := 21, byte_offset := 0 }
    true false (by decide) (by decide) (by decide) (by decide) (by decide) 0

theorem bind_def (m : M α) (f : α → M β) : m >>= f = M.bind m f := rfl

theorem pure_def (a : α) : (pure a : M α) = M.pure a := rfl

/-- A successful `peek_nchar` leaves the state untouched. -/
theorem peek_nchar_ok_state (n : Nat) (s : Deserializer) (l : List Nat)
    (s' : Deserializer) (h : peek_nchar n s = .ok (l, s')) : s' = s := by
  simp only [peek_nchar] at h
  split at h
  · simp only [Res.ok.injEq, Prod.mk.injEq] at h
    exact h.2.symm
  · split at h <;> simp at h

/-- A successful `next_char` consumes one byte and advances `byte_offset`
by one. -/
theorem next_char_ok (s : Deserializer) (c : Nat) (s' : Deserializer)
    (h : next_char s = .ok (c, s')) :
    s'.input = s.input ∧ s'.pos = s.pos + 1 ∧
      s'.byte_offset = s.byte_offset + 1 := by
  simp only [next_char, peek_char, bind_def, pure_def, M.bind, M.pure,
    consume, bump_offset] at h
  cases hp : peek_nchar 1 s with
  | ok p =>
      obtain ⟨l, s1⟩ := p
      have hs1 : s1 = s := peek_nchar_ok_state 1 s l s1 hp
      subst hs1
      rw [hp] at h
      simp only [Res.ok.injEq, Prod.mk.injEq] at h
      rw [← h.2]
      exact ⟨rfl, rfl, rfl⟩
  | err e => rw [hp] at h; simp at h
  | die msg => rw [hp] at h; simp at h
  | hang => rw [hp] at h; simp at h

/-- A successful `next_lf` returns a line of at least two bytes, consumes
exactly that line, and leaves `byte_offset` untouched. -/
theorem next_lf_ok (s : Deserializer) (buf : List Nat) (s' : Deserializer)
    (h : next_lf s = .ok (buf, s')) :
    s'.input = s.input ∧ s'.pos = s.pos + buf.length ∧
      s'.byte_offset = s.byte_offset ∧ 2 ≤ buf.length := by
  simp only [next_lf] at h
  split at h
  · simp at h
  · split at h
    · simp at h
    · rename_i hn hcr
      simp only [Res.ok.injEq, Prod.mk.injEq] at h
      obtain ⟨hb, hs⟩ := h
      subst hb
      rw [← hs]
      refine ⟨rfl, rfl, rfl, ?_⟩
      omega

/-- A successful `read_exact n` consumes `n` bytes and leaves
`byte_offset` untouched. -/
theorem read_exact_ok (n : Nat) (s : Deserializer) (l : List Nat)
    (s' : Deserializer) (h : read_exact n s = .ok (l, s')) :
    s'.input = s.input ∧ s'.pos = s.pos + n ∧
      s'.byte_offset = s.byte_offset := by
  simp only [read_exact] at h
  split at h
  · simp only [Res.ok.injEq, Prod.mk.injEq] at h
    rw [← h.2]
    exact ⟨rfl, rfl, rfl⟩
  · simp at h

/-- Applying an `if` between two state transformers to a state. -/
theorem ite_app (c : Prop) [Decidable c] (X Y : M α) (s : Deserializer) :
    (if c then X else Y) s = if c then X s else Y s := by
  split <;> rfl

/-- Inversion of a successful bind: the first action succeeded and the
continuation succeeded from the intermediate state. -/
theorem bind_ok_inv (m : M α) (f : α → M β) (s : Deserializer) (b : β)
    (s2 : Deserializer) (h : (m >>= f) s = .ok (b, s2)) :
    ∃ a s1, m s = .ok (a, s1) ∧ f a s1 = .ok (b, s2) := by
  simp only [bind_def, M.bind] at h
  split at h
  · rename_i a s1 heq
    exact ⟨a, s1, heq, h⟩
  · exact Res.noConfusion h
  · exact Res.noConfusion h
  · exact Res.noConfusion h


/-- The absent (`None`) result of `next_length_hint` comes from a 4-byte
line: the reader moved 4 bytes but `byte_offset` is unchanged (the early
return skips the `byte_offset += n` statement). -/
theorem next_length_hint_none (s s' : Deserializer)
    (h : next_length_hint s = .ok (none, s')) :
    s'.input = s.input ∧ s'.pos = s.pos + 4 ∧
      s'.byte_offset = s.byte_offset := by
  unfold next_length_hint at h
  obtain ⟨buf, s1, hl, h2⟩ := bind_ok_inv _ _ _ _ _ h
  obtain ⟨hin, hpos, hoff, hlen⟩ := next_lf_ok s buf s1 hl
  simp only [ite_app, pure_def, M.pure, M.throwE, bind_def, M.bind,
    bump_offset] at h2
  split at h2
  · split at h2
    · rename_i hfour
      have hb4 : buf.length = 4 := by
        rcases hfour with h4 | hlit
        · exact h4
        · rw [hlit]; rfl
      simp only [Res.ok.injEq, Prod.mk.injEq] at h2
      rw [← h2.2, hin, hpos, hoff, hb4]
      exact ⟨rfl, rfl, rfl⟩
    · exact Res.noConfusion h2
  · cases hpd : parseDecimalDigits (List.take (buf.length - 2) buf) 0 with
    | some l2 => rw [hpd] at h2; simp [M.bind, bump_offset, M.pure] at h2
    | none => rw [hpd] at h2; exact Res.noConfusion h2

/-- The present result of `next_length_hint` consumes the whole hint line
and advances `byte_offset` by exactly that many bytes. -/
theorem next_length_hint_some (s : Deserializer) (len : Nat)
    (s' : Deserializer) (h : next_length_hint s = .ok (some len, s')) :
    ∃ n, s'.input = s.input ∧ s'.pos = s.pos + n ∧
      s'.byte_offset = s.byte_offset + n ∧ 2 ≤ n := by
  unfold next_length_hint at h
  obtain ⟨buf, s1, hl, h2⟩ := bind_ok_inv _ _ _ _ _ h
  obtain ⟨hin, hpos, hoff, hlen⟩ := next_lf_ok s buf s1 hl
  simp only [ite_app, pure_def, M.pure, M.throwE, bind_def, M.bind,
    bump_offset] at h2
  split at h2
  · split at h2
    · simp at h2
    · exact Res.noConfusion h2
  · cases hpd : parseDecimalDigits (List.take (buf.length - 2) buf) 0 with
    | some l2 =>
        rw [hpd] at h2
        simp only [M.bind, bump_offset, M.pure, Res.ok.injEq, Prod.mk.injEq,
          Option.some.injEq] at h2
        refine ⟨buf.length, ?_, ?_, ?_, hlen⟩ <;>
          rw [← h2.2] <;> simp [hin, hpos, hoff]
    | none => rw [hpd] at h2; exact Res.noConfusion h2

/-- A successful `parse_bool` consumes its whole 10- or 11-byte frame but
leaves `byte_offset` unchanged: the literal is dropped with `consume`,
which never touches the offset. -/
theorem parse_bool_ok (s : Deserializer) (v : Bool) (s' : Deserializer)
    (h : parse_bool s = .ok (v, s')) :
    s'.input = s.input ∧ s'.byte_offset = s.byte_offset ∧
      s'.pos = s.pos + (if v then 10 else 11) := by
  unfold parse_bool at h
  obtain ⟨l, s1, hp, h2⟩ := bind_ok_inv _ _ _ _ _ h
  have hs1 : s = s1 := (peek_nchar_ok_state 10 s l s1 hp).symm
  subst hs1
  simp only [ite_app, bind_def, M.bind, consume, pure_def, M.pure,
    M.throwE] at h2
  split at h2
  · simp only [Res.ok.injEq, Prod.mk.injEq] at h2
    obtain ⟨hv, hs⟩ := h2
    subst hv
    rw [← hs]
    exact ⟨rfl, rfl, rfl⟩
  · split at h2
    · rename_i l2 s2 hp2
      have hs2 : s2 = s := peek_nchar_ok_state 11 s l2 s2 hp2
      subst hs2
      split at h2
      · simp only [Res.ok.injEq, Prod.mk.injEq] at h2
        obtain ⟨hv, hs⟩ := h2
        subst hv
        rw [← hs]
        exact ⟨rfl, rfl, rfl⟩
      · exact Res.noConfusion h2
    · exact Res.noConfusion h2
    · exact Res.noConfusion h2
    · exact Res.noConfusion h2

/-- A null option (`$-1\r\n` under `deserialize_option`) consumes its
five marker bytes with `consume(5)` and leaves `byte_offset` unchanged. -/
theorem deserialize_option_none (α : Type) (inner : M α)
    (s s' : Deserializer) (h : deserialize_option inner s = .ok (none, s')) :
    s'.input = s.input ∧ s'.byte_offset = s.byte_offset ∧
      s'.pos = s.pos + 5 := by
  unfold deserialize_option at h
  obtain ⟨l, s1, hp, h2⟩ := bind_ok_inv _ _ _ _ _ h
  have hs1 : s1 = s := peek_nchar_ok_state 5 s l s1 hp
  subst hs1
  simp only [ite_app, bind_def, M.bind, consume, pure_def, M.pure] at h2
  split at h2
  · simp only [Res.ok.injEq, Prod.mk.injEq, true_and] at h2
    rw [← h2]
    exact ⟨rfl, rfl, rfl⟩
  · split at h2
    · simp at h2
    · exact Res.noConfusion h2
    · exact Res.noConfusion h2
    · exact Res.noConfusion h2

/-- A present bulk string advances `byte_offset` by exactly the number of
bytes it consumed: one sigil byte, the whole hint line, and the
`len + 2` content-plus-terminator bytes. -/
theorem parse_bulk_string_some (s : Deserializer) (v : List Nat)
    (s' : Deserializer) (h : parse_bulk_string s = .ok (some v, s')) :
    ∃ W, s'.input = s.input ∧ s'.pos = s.pos + W ∧
      s'.byte_offset = s.byte_offset + W := by
  unfold parse_bulk_string at h
  obtain ⟨c, s1, hc, h2⟩ := bind_ok_inv _ _ _ _ _ h
  obtain ⟨hin1, hpos1, hoff1⟩ := next_char_ok s c s1 hc
  simp only [ite_app] at h2
  split at h2
  · exact Res.noConfusion h2
  · obtain ⟨o, s2, hh, h2⟩ := bind_ok_inv _ _ _ _ _ h2
    cases o with
    | none => simp [pure_def, M.pure] at h2
    | some len =>
        obtain ⟨n, hin2, hpos2, hoff2, hn⟩ := next_length_hint_some s1 len s2 hh
        obtain ⟨buf, s3, hre, h2⟩ := bind_ok_inv _ _ _ _ _ h2
        obtain ⟨hin3, hpos3, hoff3⟩ := read_exact_ok (len + 2) s2 buf s3 hre
        simp only [ite_app] at h2
        split at h2
        · exact Res.noConfusion h2
        · split at h2
          · exact Res.noConfusion h2
          · simp only [bind_def, M.bind, bump_offset, pure_def, M.pure,
              Res.ok.injEq, Prod.mk.injEq, Option.some.injEq] at h2
            refine ⟨1 + n + (len + 2), ?_, ?_, ?_⟩ <;> rw [← h2.2] <;>
              simp [hin3, hpos3, hoff3, hin2, hpos2, hoff2, hin1, hpos1,
                hoff1] <;> omega

/-- Claim C5 (amended): a successful decode still consumes exactly its
wire bytes from the reader (so the next decode starts at the frame
boundary) and `byte_offset` never decreases; but `byte_offset` advances
by the wire length only on the sigil-byte, digit-length-hint and
bulk-string paths — successful boolean decodes, null options, and null
length hints consume their bytes with `consume`/early return and advance
`byte_offset` by zero. -/
theorem C5_amended_offsets :
    (∀ s v s', parse_bool s = .ok (v, s') →
      s'.byte_offset = s.byte_offset ∧
        s'.pos = s.pos + (if v then 10 else 11))
    ∧ (∀ (α : Type) (inner : M α) s s',
        deserialize_option inner s = .ok (none, s') →
          s'.byte_offset = s.byte_offset ∧ s'.pos = s.pos + 5)
    ∧ (∀ s s', next_length_hint s = .ok (none, s') →
        s'.byte_offset = s.byte_offset ∧ s'.pos = s.pos + 4)
    ∧ (∀ s len s', next_length_hint s = .ok (some len, s') →
        ∃ n, s'.pos = s.pos + n ∧ s'.byte_offset = s.byte_offset + n)
    ∧ (∀ s v s', parse_bulk_string s = .ok (some v, s') →
        ∃ W, s'.pos = s.pos + W ∧ s'.byte_offset = s.byte_offset + W)
    ∧ (∀ s c s', next_char s = .ok (c, s') →
        s'.pos = s.pos + 1 ∧ s'.byte_offset = s.byte_offset + 1) := by
  refine ⟨?_, ?_, ?_, ?_, ?_, ?_⟩
  · intro s v s' h
    obtain ⟨_, hoff, hpos⟩ := parse_bool_ok s v s' h
    exact ⟨hoff, hpos⟩
  · intro α inner s s' h
    obtain ⟨_, hoff, hpos⟩ := deserialize_option_none α inner s s' h
    exact ⟨hoff, hpos⟩
  · intro s s' h
    obtain ⟨_, hpos, hoff⟩ := next_length_hint_none s s' h
    exact ⟨hoff, hpos⟩
  · intro s len s' h
    obtain ⟨n, _, hpos, hoff, _⟩ := next_length_hint_some s len s' h
    exact ⟨n, hpos, hoff⟩
  · intro s v s' h
    obtain ⟨W, _, hpos, hoff⟩ := parse_bulk_string_some s v s' h
    exact ⟨W, hpos, hoff⟩
  · intro s c s' h
    obtain ⟨_, hpos, hoff⟩ := next_char_ok s c s' h
    exact ⟨hpos, hoff⟩

/-- Witness for the amended C5, at the boolean `true` frame: the decode
succeeds, consumes the 10 wire bytes, and leaves `byte_offset` at 0. -/
theorem C5_amended_offsets_witness :
    ({ input := trueWire, pos := 10, byte_offset := 0 } : Deserializer).byte_offset =
      ({ input := trueWire, pos := 0, byte_offset := 0 } : Deserializer).byte_offset
    ∧ ({ input := trueWire, pos := 10, byte_offset := 0 } : Deserializer).pos =
      ({ input := trueWire, pos := 0, byte_offset := 0 } : Deserializer).pos +
        (if true then 10 else 11) :=
  C5_amended_offsets.1 { input := trueWire, pos := 0, byte_offset := 0 } true
    { input := trueWire, pos := 10, byte_offset := 0 } (by decide)
